import Mathlib

/-!
# Verification of the `storage` package of go-share

Shallow embedding of the constrained file store implemented by the
`storage` package (`storage.go`): the `directory` type with its
`Add` / `List` / `Remove` / `Serve` / `remove` operations.

Modelling decisions:
* Time is `Nat` (nanoseconds since epoch, say); the Go zero time is `0`,
  so `Constraints.Expire = 0` means "never expires", exactly as
  `time.Time.IsZero` does in `Constraints.expired`.
* The download counter is `Int`, as in the source (`Downloads int`),
  including the `-1` exhaustion sentinel written by `Serve`.
* File contents are byte lists (`List Nat`).  The backing directory is an
  association list from file name to content; `os.OpenFile` with
  `O_CREATE|O_TRUNC` creates/truncates the entry, `O_EXCL` makes the open
  fail when the entry already exists.
* I/O failures that depend on the environment (a failing `os.OpenFile`
  beyond the `O_EXCL` collision, a failing `io.Copy`, a failing
  `os.Remove`) are injected through explicit boolean parameters.
* Locks are erased: each exported operation is modelled as an atomic step
  on the whole state, i.e. we give the sequential (linearised) semantics.
  `defer d.remove(name)` in `Serve` runs before `Serve` returns, so it is
  part of `Serve`'s step.
* The `time.AfterFunc` callback armed by `Add` is recorded in a list of
  pending timers `(absolute fire time, name)`; firing a timer is calling
  `directory.remove`.
-/

namespace GoShare

/-- Byte content of a file. -/
abbrev Content := List Nat

/-- `Constraints` for the use of an uploaded file (struct `Constraints`,
with the embedded `sync.RWMutex` erased). -/
structure Constraints where
  /-- Date after which the file is inaccessible; `0` (the zero time) means
  the file never expires. -/
  Expire : Nat
  /-- Number of times the file can be served; `0` means unlimited.  `Serve`
  writes the sentinel `-1` when the last permitted download is served. -/
  Downloads : Int
  /-- Whether the file appears in the public list. -/
  Public : Bool
  /-- Whether to delete the file from the server when it becomes
  inaccessible. -/
  Delete : Bool
deriving DecidableEq, Repr

/-- `func (c *Constraints) expired() bool`:
`!c.Expire.IsZero() && c.Expire.Before(time.Now())`. -/
def Constraints.expired (c : Constraints) (now : Nat) : Bool :=
  c.Expire ≠ 0 && c.Expire < now

/-- Replace the binding of key `k` in an association list (semantics of a
Go map assignment `m[k] = v` on a list representation). -/
def setRec {α : Type} : List (String × α) → String → α → List (String × α)
  | [], k, v => [(k, v)]
  | (k', v') :: t, k, v =>
    if k' = k then (k, v) :: t else (k', v') :: setRec t k v

/-- Delete the binding of key `k` (semantics of Go `delete(m, k)` on a list
representation). -/
def eraseRec {α : Type} : List (String × α) → String → List (String × α)
  | [], _ => []
  | (k', v') :: t, k => if k' = k then t else (k', v') :: eraseRec t k

/-- `directory` together with the file-system contents of its backing
directory and the pending `time.AfterFunc` timers.  The embedded `list`
struct is flattened into the `dirty` and `slice` fields. -/
structure directory where
  /-- The backing directory's path (`d.name`). -/
  name : String
  /-- The `name → *Constraints` map (`d.files`). -/
  files : List (String × Constraints)
  /-- Contents of the backing directory on disk, by file name. -/
  disk : List (String × Content)
  /-- `d.list.dirty`. -/
  dirty : Bool
  /-- `d.list.slice`. -/
  slice : List String
  /-- Pending `time.AfterFunc(c.Expire.Sub(now), func() { d.remove(name) })`
  callbacks, as (absolute fire time, name). -/
  timers : List (Nat × String)
deriving DecidableEq, Repr

/-- Errors returned by the storage operations, one constructor per distinct
`error` value produced in the source. -/
inductive Err where
  /-- `fmt.Errorf("invalid file name %s", name)` in `Add`, and
  `errors.New("Invalid file name")` in `Serve`. -/
  | invalidName
  /-- A failing `os.OpenFile` in `Add`: the `O_EXCL` collision with an
  existing on-disk file, an `EISDIR` open of the directory itself, or an
  environment failure. -/
  | openErr
  /-- A failing `io.Copy` in `Add`. -/
  | copyErr
  /-- `errors.New("File not stored")` in `Serve`. -/
  | notFound
  /-- `errors.New("File recently expired")` in `Serve`. -/
  | expired
  /-- `errors.New("Download limit exceeded")` in `Serve`. -/
  | limitExceeded
deriving DecidableEq, Repr

instance {ε α : Type} [DecidableEq ε] [DecidableEq α] :
    DecidableEq (Except ε α) := fun a b =>
  match a, b with
  | .ok x, .ok y =>
    if h : x = y then .isTrue (by rw [h])
    else .isFalse (fun hh => by injection hh; contradiction)
  | .error x, .error y =>
    if h : x = y then .isTrue (by rw [h])
    else .isFalse (fun hh => by injection hh; contradiction)
  | .ok _, .error _ => .isFalse (fun hh => Except.noConfusion hh)
  | .error _, .ok _ => .isFalse (fun hh => Except.noConfusion hh)

/-- Strip trailing `/` characters (first loop of Go's `path.Base`). -/
def dropTrailingSlashes (l : List Char) : List Char :=
  (l.reverse.dropWhile (· = '/')).reverse

/-- The segment after the last `/` (the `strings.LastIndex` step of Go's
`path.Base`). -/
def lastElement (l : List Char) : List Char :=
  (l.reverse.takeWhile (· ≠ '/')).reverse

/-- Go's `path.Base` on the character list of a path. -/
def pathBaseAux (l : List Char) : List Char :=
  if l = [] then ['.']
  else if dropTrailingSlashes l = [] then ['/']
  else lastElement (dropTrailingSlashes l)

/-- Go's `path.Base`. -/
def pathBase (s : String) : String :=
  ⟨pathBaseAux s.data⟩

/-- The names `name` accepted by `Add`'s `path.Base(name) == name` check for
which `path.Join(d.name, name)` nevertheless resolves to an existing
directory (the backing directory itself or its parent), so that
`os.OpenFile` with `O_WRONLY` fails with `EISDIR`. -/
def resolvesToDir (name : String) : Bool :=
  name = "/" || name = "." || name = ".."

/-- `func (d *directory) Add(file io.Reader, name string, c Constraints) error`.

`openOk` injects environment failures of `os.OpenFile` (beyond the `O_EXCL`
collision and `EISDIR`, which the state determines); `copyOk` injects
failures of `io.Copy`.  A successful open truncates the on-disk file before
the copy runs, so a failed copy leaves an empty file behind. -/
def directory.Add (d : directory) (file : Content) (name : String)
    (c : Constraints) (openOk copyOk : Bool) : directory × Option Err :=
  if pathBase name ≠ name then (d, some .invalidName)
  else
    -- `flags` is `O_CREATE|O_TRUNC|O_WRONLY`, plus `O_EXCL` iff untracked.
    let excl := (List.lookup name d.files).isNone
    if !openOk || (excl && (List.lookup name d.disk).isSome)
        || resolvesToDir name then
      (d, some .openErr)
    else
      let d1 := { d with disk := setRec d.disk name [] }
      if !copyOk then (d1, some .copyErr)
      else
        ({ d1 with
            disk := setRec d1.disk name file
            files := setRec d.files name c
            dirty := d.dirty || c.Public
            timers := if c.Expire ≠ 0 then (c.Expire, name) :: d.timers
                      else d.timers },
          none)

/-- `func (d *directory) remove(name string)`: removal after expiration or
when the download limit is reached.  `unlinkOk` injects failures of
`os.Remove`; such a failure is logged and the map entry is deleted
regardless. -/
def directory.remove (d : directory) (name : String) (now : Nat)
    (unlinkOk : Bool) : directory :=
  match List.lookup name d.files with
  | none => d
  | some constraints =>
    if constraints.Downloads ≠ -1 && !constraints.expired now then d
    else
      let d1 := if constraints.Delete && unlinkOk then
                  { d with disk := eraseRec d.disk name }
                else d
      let d2 := if constraints.Public then { d1 with dirty := true } else d1
      { d2 with files := eraseRec d2.files name }

/-- `func (d *directory) Remove(name string)`: unconditional administrative
removal. -/
def directory.Remove (d : directory) (name : String) : directory :=
  let d1 := match List.lookup name d.files with
    | some c => if c.Public then { d with dirty := true } else d
    | none => d
  { d1 with files := eraseRec d1.files name }

/-- The names of public files in the map, in map order. -/
def publicNames (files : List (String × Constraints)) : List String :=
  (files.filter (fun p => p.2.Public)).map (·.1)

/-- Lexicographic comparison of character lists, by code point (Go compares
strings lexicographically by byte; the two agree on ASCII names). -/
def strLeAux : List Char → List Char → Bool
  | [], _ => true
  | _ :: _, [] => false
  | a :: as, b :: bs =>
    if a.toNat < b.toNat then true
    else if b.toNat < a.toNat then false
    else strLeAux as bs

/-- Lexicographic `≤` on strings. -/
def strLe (a b : String) : Bool :=
  strLeAux a.data b.data

/-- Insert into a `strLe`-sorted list. -/
def orderedInsert (a : String) : List String → List String
  | [] => [a]
  | b :: t => if strLe a b then a :: b :: t else b :: orderedInsert a t

/-- `sort.Strings`: sort lexicographically.  Insertion sort is used; the
observable behaviour of any sorting algorithm is the same. -/
def sortStrings : List String → List String
  | [] => []
  | a :: t => orderedInsert a (sortStrings t)

/-- `func (d *directory) List() []string`: rebuilds the cached slice when
dirty, then returns a copy of it. -/
def directory.List (d : directory) : directory × List String :=
  if d.dirty then
    let s := sortStrings (publicNames d.files)
    ({ d with slice := s, dirty := false }, s)
  else (d, d.slice)

/-- `func (d *directory) Serve(w, r, name) error`, linearised.

The result carries the content `http.ServeFile` streams on the success
paths (`none` when the on-disk file is missing, in which case
`http.ServeFile` replies 404 but `Serve` still returns `nil`).  On the
`Downloads == 1` path the source registers `defer d.remove(name)`, which
runs after the transfer, i.e. as the last part of this step. -/
def directory.Serve (d : directory) (name : String) (now : Nat)
    (unlinkOk : Bool) : directory × Except Err (Option Content) :=
  if name.data.contains '/' || name = "" then (d, .error .invalidName)
  else
    match List.lookup name d.files with
    | none => (d, .error .notFound)
    | some constraints =>
      if constraints.expired now then (d, .error .expired)
      else if 0 < constraints.Downloads then
        -- have to modify the value
        if constraints.Downloads = 1 then
          let d1 := { d with
            files := setRec d.files name { constraints with Downloads := -1 } }
          let content := List.lookup name d1.disk
          (d1.remove name now unlinkOk, .ok content)
        else if constraints.Downloads = -1 then
          -- only reachable when the counter changed between the RLock and
          -- the Lock; dead under the linearised semantics
          (d, .error .limitExceeded)
        else
          ({ d with
              files := setRec d.files name
                { constraints with Downloads := constraints.Downloads - 1 } },
            .ok (List.lookup name d.disk))
      else (d, .ok (List.lookup name d.disk))

/-- Iterate `Serve` on one name, keeping only the state (used to state that
repeated serves leave the store unchanged). -/
def serveIter (name : String) (now : Nat) (uok : Bool) :
    Nat → directory → directory
  | 0, d => d
  | k + 1, d => serveIter name now uok k (d.Serve name now uok).1

/-- A store over an empty backing directory, as `NewDirectory` creates it
(fresh map, clean cache, nothing on disk, no timers). -/
def emptyDir : directory :=
  { name := "dir", files := [], disk := [], dirty := false, slice := []
    timers := [] }

end GoShare

namespace GoShare

/-! ## Helper lemmas about the association-list operations -/

theorem str_beq_false {k k' : String} (h : ¬k = k') : (k == k') = false := by
  cases hb : k == k'
  · rfl
  · exact absurd (eq_of_beq hb) h

theorem lookup_cons_self {α : Type} (k : String) (v : α)
    (t : List (String × α)) : List.lookup k ((k, v) :: t) = some v := by
  simp [List.lookup]

theorem lookup_cons_ne {α : Type} (k k' : String) (v' : α)
    (t : List (String × α)) (h : ¬k = k') :
    List.lookup k ((k', v') :: t) = List.lookup k t := by
  simp [List.lookup, str_beq_false h]

theorem lookup_setRec_self {α : Type} (l : List (String × α)) (k : String)
    (v : α) : List.lookup k (setRec l k v) = some v := by
  induction l with
  | nil => simp [setRec, List.lookup]
  | cons p t ih =>
    obtain ⟨k', v'⟩ := p
    by_cases h : k' = k
    · simp [setRec, h, lookup_cons_self]
    · rw [setRec, if_neg h, lookup_cons_ne _ _ _ _ fun hh => h hh.symm]
      exact ih

theorem setRec_of_lookup_none {α : Type} (l : List (String × α)) (k : String)
    (v : α) (h : List.lookup k l = none) : setRec l k v = l ++ [(k, v)] := by
  induction l with
  | nil => simp [setRec]
  | cons p t ih =>
    obtain ⟨k', v'⟩ := p
    by_cases hk : k = k'
    · rw [hk, lookup_cons_self] at h
      exact absurd h (by simp)
    · rw [lookup_cons_ne _ _ _ _ hk] at h
      rw [setRec, if_neg fun hh => hk hh.symm, ih h]
      simp

theorem eraseRec_of_lookup_none {α : Type} (l : List (String × α))
    (k : String) (h : List.lookup k l = none) : eraseRec l k = l := by
  induction l with
  | nil => simp [eraseRec]
  | cons p t ih =>
    obtain ⟨k', v'⟩ := p
    by_cases hk : k = k'
    · rw [hk, lookup_cons_self] at h
      exact absurd h (by simp)
    · rw [lookup_cons_ne _ _ _ _ hk] at h
      rw [eraseRec, if_neg fun hh => hk hh.symm, ih h]

theorem eraseRec_append_of_lookup_none {α : Type} (l : List (String × α))
    (k : String) (v : α) (h : List.lookup k l = none) :
    eraseRec (l ++ [(k, v)]) k = l := by
  induction l with
  | nil => simp [eraseRec]
  | cons p t ih =>
    obtain ⟨k', v'⟩ := p
    by_cases hk : k = k'
    · rw [hk, lookup_cons_self] at h
      exact absurd h (by simp)
    · rw [lookup_cons_ne _ _ _ _ hk] at h
      rw [List.cons_append, eraseRec, if_neg fun hh => hk hh.symm, ih h]

theorem setRec_append_of_lookup_none {α : Type} (l : List (String × α))
    (k : String) (v v' : α) (h : List.lookup k l = none) :
    setRec (l ++ [(k, v)]) k v' = l ++ [(k, v')] := by
  induction l with
  | nil => simp [setRec]
  | cons p t ih =>
    obtain ⟨k', v''⟩ := p
    by_cases hk : k = k'
    · rw [hk, lookup_cons_self] at h
      exact absurd h (by simp)
    · rw [lookup_cons_ne _ _ _ _ hk] at h
      rw [List.cons_append, setRec, if_neg fun hh => hk hh.symm, ih h]
      simp

/-! ## Helper lemmas about `path.Base` and name validity -/

theorem pathBaseAux_ne_of_mem_slash (l : List Char) (h : '/' ∈ l)
    (h2 : l ≠ ['/']) : pathBaseAux l ≠ l := by
  intro heq
  have hne : l ≠ [] := by rintro rfl; simp at h
  unfold pathBaseAux at heq
  rw [if_neg hne] at heq
  by_cases h3 : dropTrailingSlashes l = []
  · rw [if_pos h3] at heq
    exact h2 heq.symm
  · rw [if_neg h3] at heq
    have hmem : '/' ∈ lastElement (dropTrailingSlashes l) := by
      rw [heq]; exact h
    rw [lastElement, List.mem_reverse] at hmem
    have := List.mem_takeWhile_imp hmem
    simp at this

/-- A name accepted by `Add`'s `path.Base(name) == name` check that names a
regular file inside the backing directory contains no `/` and is nonempty. -/
theorem valid_name_no_slash (name : String) (hb : pathBase name = name)
    (hr : resolvesToDir name = false) :
    name.data.contains '/' = false ∧ name ≠ "" := by
  have hdata : pathBaseAux name.data = name.data := congrArg String.data hb
  constructor
  · by_contra hc
    have hm : '/' ∈ name.data := by
      have : name.data.contains '/' = true := by
        cases hcc : name.data.contains '/'
        · exact absurd hcc hc
        · rfl
      simpa [List.contains, List.elem_iff] using this
    have hld : name.data ≠ ['/'] := by
      intro hh
      have : name = "/" := String.ext hh
      subst this
      simp [resolvesToDir] at hr
    exact pathBaseAux_ne_of_mem_slash name.data hm hld hdata
  · intro hh
    subst hh
    simp [pathBaseAux] at hdata

theorem not_mem_slash (name : String)
    (h1 : name.data.contains '/' = false) : '/' ∉ name.data := by
  intro hm
  have : name.data.contains '/' = true := by
    simpa [List.contains] using List.elem_iff.mpr hm
  rw [h1] at this
  cases this

/-! ## Step characterisations of the operations -/

/-- `remove` leaves the store untouched when the entry is neither exhausted
nor expired. -/
theorem remove_skip (d : directory) (name : String) (now : Nat) (uok : Bool)
    (c : Constraints) (hc : List.lookup name d.files = some c)
    (h1 : c.Downloads ≠ -1) (h2 : c.expired now = false) :
    d.remove name now uok = d := by
  unfold directory.remove
  rw [hc]
  simp [h1, h2]

/-- Field-by-field action of `remove` on an exhausted or expired entry. -/
theorem remove_fields (d : directory) (name : String) (now : Nat) (uok : Bool)
    (c : Constraints) (hc : List.lookup name d.files = some c)
    (hx : c.Downloads = -1 ∨ c.expired now = true) :
    (d.remove name now uok).files = eraseRec d.files name ∧
    (d.remove name now uok).disk
      = (if c.Delete && uok then eraseRec d.disk name else d.disk) ∧
    (d.remove name now uok).dirty = (d.dirty || c.Public) ∧
    (d.remove name now uok).slice = d.slice ∧
    (d.remove name now uok).timers = d.timers ∧
    (d.remove name now uok).name = d.name := by
  have hcond : (decide ¬(c.Downloads = -1) && !c.expired now) = false := by
    rcases hx with h | h <;> simp [h]
  unfold directory.remove
  rw [hc]
  simp only [ne_eq, hcond, Bool.false_eq_true, if_false]
  cases hD : c.Delete <;> cases hU : uok <;> cases hP : c.Public <;> simp

/-- Successful `Add` of a fresh name over a clean disk. -/
theorem Add_fresh (d : directory) (file : Content) (name : String)
    (c : Constraints) (hb : pathBase name = name)
    (hr : resolvesToDir name = false)
    (hf : List.lookup name d.files = none)
    (hd : List.lookup name d.disk = none) :
    d.Add file name c true true =
      ({ d with
          disk := setRec (setRec d.disk name []) name file
          files := setRec d.files name c
          dirty := d.dirty || c.Public
          timers := if c.Expire ≠ 0 then (c.Expire, name) :: d.timers
                    else d.timers },
        none) := by
  unfold directory.Add
  rw [if_neg fun hh => hh hb]
  simp [hf, hd, hr]

/-- Successful `Add` over an already tracked name (the overwrite path:
`O_EXCL` is not set, so the open succeeds regardless of the disk). -/
theorem Add_tracked (d : directory) (file : Content) (name : String)
    (c cOld : Constraints) (hb : pathBase name = name)
    (hr : resolvesToDir name = false)
    (hc : List.lookup name d.files = some cOld) :
    d.Add file name c true true =
      ({ d with
          disk := setRec (setRec d.disk name []) name file
          files := setRec d.files name c
          dirty := d.dirty || c.Public
          timers := if c.Expire ≠ 0 then (c.Expire, name) :: d.timers
                    else d.timers },
        none) := by
  unfold directory.Add
  rw [if_neg fun hh => hh hb]
  simp [hc, hr]

/-- `Serve` of an unexpired entry with `Downloads = 0` returns the on-disk
content and leaves the store unchanged. -/
theorem Serve_unlimited (d : directory) (name : String) (now : Nat)
    (uok : Bool) (c : Constraints) (h1 : name.data.contains '/' = false)
    (h2 : name ≠ "") (hc : List.lookup name d.files = some c)
    (hdl : c.Downloads = 0) (hexp : c.expired now = false) :
    d.Serve name now uok = (d, .ok (List.lookup name d.disk)) := by
  unfold directory.Serve
  rw [if_neg (by simp [not_mem_slash name h1, h2])]
  rw [hc]
  simp [hexp, hdl]

/-- `Serve` of an untracked (but syntactically valid) name fails with
`NotFound` and leaves the store unchanged. -/
theorem Serve_notFound (d : directory) (name : String) (now : Nat)
    (uok : Bool) (h1 : name.data.contains '/' = false) (h2 : name ≠ "")
    (hn : List.lookup name d.files = none) :
    d.Serve name now uok = (d, .error .notFound) := by
  unfold directory.Serve
  rw [if_neg (by simp [not_mem_slash name h1, h2]), hn]

/-- `Serve` of an unexpired entry with `Downloads = 1`: the counter is set
to the `-1` sentinel, the content is streamed, and the deferred
`d.remove(name)` runs before `Serve` returns. -/
theorem Serve_last_download (d : directory) (name : String) (now : Nat)
    (uok : Bool) (c : Constraints) (h1 : name.data.contains '/' = false)
    (h2 : name ≠ "") (hc : List.lookup name d.files = some c)
    (hdl : c.Downloads = 1) (hexp : c.expired now = false) :
    d.Serve name now uok =
      (({ d with
            files := setRec d.files name { c with Downloads := -1 } }).remove
          name now uok,
        .ok (List.lookup name d.disk)) := by
  unfold directory.Serve
  rw [if_neg (by simp [not_mem_slash name h1, h2]), hc]
  simp [hexp, hdl]

/-! ## The claims -/

/-- **C7.** For every name that contains a path separator, and for the
empty name, `Add` returns an error and performs no side effects: the state
(map, disk, cache, timers) is returned unchanged.  Names other than `"/"`
that contain a `/` (and the empty name) are rejected by the
`path.Base(name) == name` check; the name `"/"` passes that check but the
subsequent `os.OpenFile` of the backing directory itself fails, again
before any mutation. -/
theorem add_rejects_invalid_names (d : directory) (file : Content)
    (name : String) (c : Constraints) (openOk copyOk : Bool)
    (h : name.data.contains '/' = true ∨ name = "") :
    (d.Add file name c openOk copyOk).1 = d ∧
    (d.Add file name c openOk copyOk).2.isSome = true := by
  rcases h with h | h
  · by_cases hsl : name = "/"
    · subst hsl
      have hbase : pathBase "/" = "/" := by decide
      have hres : resolvesToDir "/" = true := by decide
      unfold directory.Add
      simp [hbase, hres]
    · have hm : '/' ∈ name.data := by
        simpa [List.contains, List.elem_iff] using h
      have hld : name.data ≠ ['/'] := by
        intro hh
        exact hsl (String.ext (by rw [hh]))
      have hb' : pathBase name ≠ name := by
        intro hbb
        exact pathBaseAux_ne_of_mem_slash name.data hm hld
          (congrArg String.data hbb)
      unfold directory.Add
      rw [if_pos hb']
      exact ⟨rfl, rfl⟩
  · subst h
    unfold directory.Add
    rw [if_pos (by decide)]
    exact ⟨rfl, rfl⟩

/-- **C7 witness.** The hypothesis is satisfiable (e.g. by `"a/b"`) and the
conclusion holds there. -/
theorem add_rejects_invalid_names_witness :
    (("a/b" : String).data.contains '/' = true ∨ ("a/b" : String) = "") ∧
    ((emptyDir.Add [1] "a/b" ⟨0, 0, false, false⟩ true true).1 = emptyDir ∧
      (emptyDir.Add [1] "a/b" ⟨0, 0, false, false⟩ true true).2.isSome
        = true) :=
  ⟨Or.inl (by decide),
    add_rejects_invalid_names emptyDir [1] "a/b" ⟨0, 0, false, false⟩ true
      true (Or.inl (by decide))⟩

/-- **C8.** `Remove(name)` unconditionally deletes the map entry, without
consulting expiration or download state; it marks the listing cache dirty
exactly when the entry existed and was public (otherwise the flag keeps its
value); it touches nothing else; and on a non-existent name it is a
complete no-op (no error is even possible, as `Remove` returns nothing), so
the cached listing for other names is unaffected. -/
theorem Remove_unconditional_idempotent (d : directory) (name : String) :
    (d.Remove name).files = eraseRec d.files name ∧
    (d.Remove name).dirty
      = (d.dirty || (match List.lookup name d.files with
          | some c => c.Public
          | none => false)) ∧
    (d.Remove name).slice = d.slice ∧
    (d.Remove name).disk = d.disk ∧
    (d.Remove name).timers = d.timers ∧
    (List.lookup name d.files = none → d.Remove name = d) := by
  unfold directory.Remove
  cases hm : List.lookup name d.files with
  | none =>
    refine ⟨rfl, by simp, rfl, rfl, rfl, fun _ => ?_⟩
    show ({ d with files := eraseRec d.files name } : directory) = d
    rw [eraseRec_of_lookup_none _ _ hm]
  | some c =>
    cases hp : c.Public <;> simp [hp]

/-- **C8 witness.** Instantiated at a store not tracking `"g"`: `Remove` is
a silent no-op there. -/
theorem Remove_unconditional_idempotent_witness :
    List.lookup "g" emptyDir.files = none ∧
    (emptyDir.Remove "g").files = eraseRec emptyDir.files "g" ∧
    (emptyDir.Remove "g").dirty
      = (emptyDir.dirty || (match List.lookup "g" emptyDir.files with
          | some c => c.Public
          | none => false)) ∧
    (emptyDir.Remove "g").slice = emptyDir.slice ∧
    (emptyDir.Remove "g").disk = emptyDir.disk ∧
    (emptyDir.Remove "g").timers = emptyDir.timers ∧
    emptyDir.Remove "g" = emptyDir :=
  ⟨by decide,
    (Remove_unconditional_idempotent emptyDir "g").1,
    (Remove_unconditional_idempotent emptyDir "g").2.1,
    (Remove_unconditional_idempotent emptyDir "g").2.2.1,
    (Remove_unconditional_idempotent emptyDir "g").2.2.2.1,
    (Remove_unconditional_idempotent emptyDir "g").2.2.2.2.1,
    (Remove_unconditional_idempotent emptyDir "g").2.2.2.2.2 (by decide)⟩

/-- **C9.** The conditional removal routine `remove` (invoked by `Serve`
exhaustion and by the expiration timer) deletes a tracked entry iff its
download counter is the `-1` exhaustion sentinel or its expiration has
passed, and otherwise returns the state untouched; when it does remove, the
backing file is unlinked iff the `Delete` flag is set (and the unlink
succeeds), and the map entry is deleted even when the disk unlink fails. -/
theorem remove_conditional_spec (d : directory) (name : String) (now : Nat)
    (uok : Bool) (c : Constraints)
    (hc : List.lookup name d.files = some c) :
    ((c.Downloads ≠ -1 ∧ c.expired now = false) →
      d.remove name now uok = d) ∧
    ((c.Downloads = -1 ∨ c.expired now = true) →
      (d.remove name now uok).files = eraseRec d.files name ∧
      (d.remove name now uok).disk
        = (if c.Delete && uok then eraseRec d.disk name else d.disk) ∧
      (d.remove name now uok).dirty = (d.dirty || c.Public) ∧
      (d.remove name now uok).slice = d.slice ∧
      (d.remove name now uok).timers = d.timers) :=
  ⟨fun hh => remove_skip d name now uok c hc hh.1 hh.2,
   fun hx =>
     ⟨(remove_fields d name now uok c hc hx).1,
      (remove_fields d name now uok c hc hx).2.1,
      (remove_fields d name now uok c hc hx).2.2.1,
      (remove_fields d name now uok c hc hx).2.2.2.1,
      (remove_fields d name now uok c hc hx).2.2.2.2.1⟩⟩

/-- **C9 witness.** Instantiated at a store tracking `"f"` with an
exhausted, delete-on-exhaustion record and a failing unlink: the map entry
goes away, the disk is untouched. -/
theorem remove_conditional_spec_witness :
    List.lookup "f" (directory.mk "dir" [("f", ⟨0, -1, false, true⟩)]
        [("f", [7])] false [] []).files = some ⟨0, -1, false, true⟩ ∧
    ((directory.mk "dir" [("f", ⟨0, -1, false, true⟩)] [("f", [7])] false []
        []).remove "f" 0 false).files
      = eraseRec (directory.mk "dir" [("f", ⟨0, -1, false, true⟩)]
          [("f", [7])] false [] []).files "f" ∧
    ((directory.mk "dir" [("f", ⟨0, -1, false, true⟩)] [("f", [7])] false []
        []).remove "f" 0 false).disk
      = (if (⟨0, -1, false, true⟩ : Constraints).Delete && false then
          eraseRec (directory.mk "dir" [("f", ⟨0, -1, false, true⟩)]
            [("f", [7])] false [] []).disk "f"
        else (directory.mk "dir" [("f", ⟨0, -1, false, true⟩)] [("f", [7])]
            false [] []).disk) ∧
    ((directory.mk "dir" [("f", ⟨0, -1, false, true⟩)] [("f", [7])] false []
        []).remove "f" 0 false).dirty
      = ((directory.mk "dir" [("f", ⟨0, -1, false, true⟩)] [("f", [7])]
          false [] []).dirty || (⟨0, -1, false, true⟩ : Constraints).Public) ∧
    ((directory.mk "dir" [("f", ⟨0, -1, false, true⟩)] [("f", [7])] false []
        []).remove "f" 0 false).slice
      = (directory.mk "dir" [("f", ⟨0, -1, false, true⟩)] [("f", [7])] false
          [] []).slice ∧
    ((directory.mk "dir" [("f", ⟨0, -1, false, true⟩)] [("f", [7])] false []
        []).remove "f" 0 false).timers
      = (directory.mk "dir" [("f", ⟨0, -1, false, true⟩)] [("f", [7])] false
          [] []).timers :=
  ⟨by decide,
    (remove_conditional_spec
        (directory.mk "dir" [("f", ⟨0, -1, false, true⟩)] [("f", [7])] false
          [] []) "f" 0 false ⟨0, -1, false, true⟩ (by decide)).2
      (Or.inl rfl)⟩

/-- **C10.** Administrative `Remove` never touches the on-disk file: for
every store state and name — in particular when the record's `Delete` flag
is set — the backing directory's contents are unchanged; only the
conditional removal routine `remove` ever unlinks a file. -/
theorem Remove_preserves_disk (d : directory) (name : String) :
    (d.Remove name).disk = d.disk := by
  unfold directory.Remove
  cases List.lookup name d.files with
  | none => rfl
  | some c => cases hp : c.Public <;> simp [hp]

/-- **C3 counterexample.** A record whose download counter already holds
the `Exhausted` sentinel `-1` (here put there by `Add` itself, which
accepts any `Constraints` value) is *served successfully* by `Serve`, not
rejected with `LimitExceeded`: `Downloads = -1` fails the
`Downloads > 0` test and falls through to the unlimited-download path. -/
theorem exhausted_sentinel_served_refutes_priority :
    (emptyDir.Add [7] "f" ⟨0, -1, false, false⟩ true true).2 = none ∧
    List.lookup "f" (emptyDir.Add [7] "f" ⟨0, -1, false, false⟩ true
        true).1.files = some ⟨0, -1, false, false⟩ ∧
    (⟨0, -1, false, false⟩ : Constraints).expired 0 = false ∧
    ((emptyDir.Add [7] "f" ⟨0, -1, false, false⟩ true true).1.Serve "f" 0
        true).2 = .ok (some [7]) ∧
    ((emptyDir.Add [7] "f" ⟨0, -1, false, false⟩ true true).1.Serve "f" 0
        true).2 ≠ .error .limitExceeded := by decide

/-- **C3** (corrected).  For every store state and every nonempty name not
containing a path separator, `Serve`'s outcomes are: `NotFound` when no
record exists for the name; otherwise `Expired` when the record's
expiration time has passed (including one already past at `Add` time);
otherwise `Serve` *succeeds* — even when the download counter holds the
`Exhausted` sentinel `-1`, which is served like `Unlimited`.  Under the
sequential semantics the `LimitExceeded` error is never returned (it lives
in the concurrent re-check between the read lock and the write lock). -/
theorem serve_error_priority (d : directory) (name : String) (now : Nat)
    (uok : Bool) (h1 : name.data.contains '/' = false) (h2 : name ≠ "") :
    (List.lookup name d.files = none →
      d.Serve name now uok = (d, .error .notFound)) ∧
    (∀ c, List.lookup name d.files = some c →
      (c.expired now = true → d.Serve name now uok = (d, .error .expired)) ∧
      (c.expired now = false →
        (d.Serve name now uok).2.isOk = true)) := by
  constructor
  · intro hn
    exact Serve_notFound d name now uok h1 h2 hn
  · intro c hc
    constructor
    · intro hexp
      unfold directory.Serve
      rw [if_neg (by simp [not_mem_slash name h1, h2]), hc]
      simp [hexp]
    · intro hexp
      unfold directory.Serve
      rw [if_neg (by simp [not_mem_slash name h1, h2]), hc]
      dsimp only
      rw [if_neg (by simp [hexp])]
      by_cases hdl : (0 : Int) < c.Downloads
      · rw [if_pos hdl]
        by_cases h1d : c.Downloads = 1
        · rw [if_pos h1d]
          rfl
        · rw [if_neg h1d, if_neg (by omega)]
          rfl
      · rw [if_neg hdl]
        rfl

/-- **C3 witness.** Instantiated at a one-entry store, the tracked name
`"f"` and an unexpired record: the serve succeeds. -/
theorem serve_error_priority_witness :
    (("f" : String).data.contains '/' = false ∧ ("f" : String) ≠ "" ∧
      List.lookup "f" (directory.mk "dir" [("f", ⟨0, 0, false, false⟩)]
        [("f", [7])] false [] []).files = some ⟨0, 0, false, false⟩ ∧
      (⟨0, 0, false, false⟩ : Constraints).expired 3 = false) ∧
    ((directory.mk "dir" [("f", ⟨0, 0, false, false⟩)] [("f", [7])] false []
        []).Serve "f" 3 true).2.isOk = true :=
  ⟨⟨by decide, by decide, by decide, by decide⟩,
    ((serve_error_priority
        (directory.mk "dir" [("f", ⟨0, 0, false, false⟩)] [("f", [7])] false
          [] []) "f" 3 true (by decide) (by decide)).2
      ⟨0, 0, false, false⟩ (by decide)).2 (by decide)⟩

/-- **C5.** `Add` with a name already tracked in the map overwrites the
on-disk file (truncate, then write the new content) and replaces the
record, without error; `Add` with a name not tracked in the map sets
`O_EXCL`, so it fails with the open error when a file of that name already
exists on disk, mutating nothing. -/
theorem add_overwrite_vs_fresh_create (d : directory) (file : Content)
    (name : String) (c : Constraints) (hb : pathBase name = name)
    (hr : resolvesToDir name = false) :
    (∀ cOld, List.lookup name d.files = some cOld →
      (d.Add file name c true true).2 = none ∧
      (d.Add file name c true true).1.files = setRec d.files name c ∧
      (d.Add file name c true true).1.disk
        = setRec (setRec d.disk name []) name file) ∧
    (List.lookup name d.files = none →
      (List.lookup name d.disk).isSome = true →
      d.Add file name c true true = (d, some Err.openErr)) := by
  constructor
  · intro cOld hc
    rw [Add_tracked d file name c cOld hb hr hc]
    exact ⟨rfl, rfl, rfl⟩
  · intro hf hdisk
    unfold directory.Add
    rw [if_neg fun hh => hh hb]
    simp [hf, hdisk]

/-- **C5 witness.** Instantiated at a store tracking `"f"`: the overwrite
succeeds and replaces record and on-disk content. -/
theorem add_overwrite_vs_fresh_create_witness :
    (pathBase "f" = "f" ∧ resolvesToDir "f" = false ∧
      List.lookup "f" (directory.mk "dir" [("f", ⟨0, 0, false, false⟩)]
        [("f", [7])] false [] []).files = some ⟨0, 0, false, false⟩) ∧
    (((directory.mk "dir" [("f", ⟨0, 0, false, false⟩)] [("f", [7])] false []
        []).Add [9] "f" ⟨0, 0, true, true⟩ true true).2 = none ∧
    ((directory.mk "dir" [("f", ⟨0, 0, false, false⟩)] [("f", [7])] false []
        []).Add [9] "f" ⟨0, 0, true, true⟩ true true).1.files
      = setRec (directory.mk "dir" [("f", ⟨0, 0, false, false⟩)]
          [("f", [7])] false [] []).files "f" ⟨0, 0, true, true⟩ ∧
    ((directory.mk "dir" [("f", ⟨0, 0, false, false⟩)] [("f", [7])] false []
        []).Add [9] "f" ⟨0, 0, true, true⟩ true true).1.disk
      = setRec (setRec (directory.mk "dir" [("f", ⟨0, 0, false, false⟩)]
          [("f", [7])] false [] []).disk "f" []) "f" [9]) :=
  ⟨⟨by decide, by decide, by decide⟩,
    (add_overwrite_vs_fresh_create
        (directory.mk "dir" [("f", ⟨0, 0, false, false⟩)] [("f", [7])] false
          [] []) [9] "f" ⟨0, 0, true, true⟩ (by decide) (by decide)).1
      ⟨0, 0, false, false⟩ (by decide)⟩

/-- **C6.** When the disk write performed by `Add` fails — the file open or
the content copy — `Add` returns an error and the name-to-record map is not
mutated: no entry is added or replaced, the listing cache's dirty flag is
untouched, and no expiration timer is armed.  (A failed copy can leave a
truncated file on disk; the claim, and this theorem, constrain only the
map, the cache and the timers.) -/
theorem add_io_failure_no_map_mutation (d : directory) (file : Content)
    (name : String) (c : Constraints) (openOk copyOk : Bool)
    (h : openOk = false ∨ copyOk = false) :
    (d.Add file name c openOk copyOk).2.isSome = true ∧
    (d.Add file name c openOk copyOk).1.files = d.files ∧
    (d.Add file name c openOk copyOk).1.dirty = d.dirty ∧
    (d.Add file name c openOk copyOk).1.timers = d.timers ∧
    (d.Add file name c openOk copyOk).1.slice = d.slice := by
  unfold directory.Add
  rcases h with h | h <;> subst h
  · split
    · exact ⟨rfl, rfl, rfl, rfl, rfl⟩
    · dsimp only
      rw [if_pos (by simp)]
      exact ⟨rfl, rfl, rfl, rfl, rfl⟩
  · split
    · exact ⟨rfl, rfl, rfl, rfl, rfl⟩
    · dsimp only
      by_cases hcond : (!openOk
          || (List.lookup name d.files).isNone
            && (List.lookup name d.disk).isSome
          || resolvesToDir name) = true
      · rw [if_pos hcond]
        exact ⟨rfl, rfl, rfl, rfl, rfl⟩
      · rw [if_neg hcond]
        exact ⟨rfl, rfl, rfl, rfl, rfl⟩

/-- **C6 witness.** Instantiated with a failing copy on a fresh add. -/
theorem add_io_failure_no_map_mutation_witness :
    ((true : Bool) = false ∨ (false : Bool) = false) ∧
    ((emptyDir.Add [1] "f" ⟨0, 0, true, false⟩ true false).2.isSome = true ∧
    (emptyDir.Add [1] "f" ⟨0, 0, true, false⟩ true false).1.files
      = emptyDir.files ∧
    (emptyDir.Add [1] "f" ⟨0, 0, true, false⟩ true false).1.dirty
      = emptyDir.dirty ∧
    (emptyDir.Add [1] "f" ⟨0, 0, true, false⟩ true false).1.timers
      = emptyDir.timers ∧
    (emptyDir.Add [1] "f" ⟨0, 0, true, false⟩ true false).1.slice
      = emptyDir.slice) :=
  ⟨Or.inr rfl,
    add_io_failure_no_map_mutation emptyDir [1] "f" ⟨0, 0, true, false⟩ true
      false (Or.inr rfl)⟩

/-- **C1 counterexample.** After `Add` with one download and a first
successful `Serve`, the *second* `Serve` fails with `NotFound`, not
`LimitExceeded`: the `defer d.remove(name)` registered on the
`Downloads == 1` path runs before the first `Serve` returns, so the entry
is already gone. -/
theorem serve_once_then_limitExceeded_refuted :
    ((((emptyDir.Add [1, 2] "f" ⟨0, 1, false, false⟩ true true).1.Serve "f" 5
        true).1.Serve "f" 5 true).2 = .error .notFound) ∧
    ((((emptyDir.Add [1, 2] "f" ⟨0, 1, false, false⟩ true true).1.Serve "f" 5
        true).1.Serve "f" 5 true).2 ≠ .error .limitExceeded) ∧
    (((emptyDir.Add [1, 2] "f" ⟨0, 1, false, false⟩ true true).1.Serve "f" 5
        true).2 = .ok (some [1, 2])) := by decide

/-- **C1** (corrected).  For every content and fresh valid name, after
`Add(c, n, {downloads: 1})` the first `Serve(n)` succeeds and returns `c`;
the deferred conditional removal then deletes the entry *before the first
`Serve` returns*, so the entry is absent from the store and a second
`Serve(n)` fails with `NotFound` (not `LimitExceeded`) while leaving the
state unchanged — hence a third `Serve(n)` fails with `NotFound` too (it is
the very same call on the very same state as the second). -/
theorem add_one_download_serve_lifecycle (d : directory) (file : Content)
    (name : String) (pub del uok : Bool) (now : Nat)
    (hb : pathBase name = name) (hr : resolvesToDir name = false)
    (hf : List.lookup name d.files = none)
    (hd : List.lookup name d.disk = none) :
    (d.Add file name ⟨0, 1, pub, del⟩ true true).2 = none ∧
    ((d.Add file name ⟨0, 1, pub, del⟩ true true).1.Serve name now uok).2
      = .ok (some file) ∧
    List.lookup name
      ((d.Add file name ⟨0, 1, pub, del⟩ true true).1.Serve name now
        uok).1.files = none ∧
    ((d.Add file name ⟨0, 1, pub, del⟩ true true).1.Serve name now
        uok).1.Serve name now uok
      = (((d.Add file name ⟨0, 1, pub, del⟩ true true).1.Serve name now
          uok).1, .error .notFound) := by
  obtain ⟨h1, h2⟩ := valid_name_no_slash name hb hr
  have hAdd : d.Add file name ⟨0, 1, pub, del⟩ true true
      = ({ d with
            disk := setRec (setRec d.disk name []) name file
            files := setRec d.files name ⟨0, 1, pub, del⟩
            dirty := d.dirty || pub }, none) := by
    rw [Add_fresh d file name ⟨0, 1, pub, del⟩ hb hr hf hd]
    simp
  set D1 : directory :=
    { d with
        disk := setRec (setRec d.disk name []) name file
        files := setRec d.files name ⟨0, 1, pub, del⟩
        dirty := d.dirty || pub } with hD1def
  have hlk1 : List.lookup name D1.files = some ⟨0, 1, pub, del⟩ := by
    rw [hD1def]; exact lookup_setRec_self _ _ _
  have hdisk1 : List.lookup name D1.disk = some file := by
    rw [hD1def]; exact lookup_setRec_self _ _ _
  have hS := Serve_last_download D1 name now uok ⟨0, 1, pub, del⟩ h1 h2 hlk1
    rfl (by simp [Constraints.expired])
  rw [hdisk1] at hS
  set D2 : directory :=
    { D1 with files := setRec D1.files name ⟨0, -1, pub, del⟩ } with hD2def
  have hlk2 : List.lookup name D2.files = some ⟨0, -1, pub, del⟩ := by
    rw [hD2def]; exact lookup_setRec_self _ _ _
  have hfiles2 : (D2.remove name now uok).files = d.files := by
    rw [(remove_fields D2 name now uok ⟨0, -1, pub, del⟩ hlk2 (Or.inl rfl)).1]
    rw [hD2def]
    dsimp only
    rw [setRec_of_lookup_none _ _ _ hf,
      setRec_append_of_lookup_none _ _ _ _ hf,
      eraseRec_append_of_lookup_none _ _ _ hf]
  refine ⟨?_, ?_, ?_, ?_⟩
  · rw [hAdd]
  · rw [hAdd]
    dsimp only
    rw [hS]
  · rw [hAdd]
    dsimp only
    rw [hS]
    dsimp only
    rw [hfiles2]
    exact hf
  · rw [hAdd]
    dsimp only
    rw [hS]
    dsimp only
    exact Serve_notFound _ name now uok h1 h2 (by rw [hfiles2]; exact hf)

/-- **C1 witness.** Instantiated at the empty store, content `[9]`, name
`"g"`, a public delete-on-exhaustion record. -/
theorem add_one_download_serve_lifecycle_witness :
    (pathBase "g" = "g" ∧ resolvesToDir "g" = false ∧
      List.lookup "g" emptyDir.files = none ∧
      List.lookup "g" emptyDir.disk = none) ∧
    ((emptyDir.Add [9] "g" ⟨0, 1, true, true⟩ true true).2 = none ∧
    ((emptyDir.Add [9] "g" ⟨0, 1, true, true⟩ true true).1.Serve "g" 4
        true).2 = .ok (some [9]) ∧
    List.lookup "g"
      ((emptyDir.Add [9] "g" ⟨0, 1, true, true⟩ true true).1.Serve "g" 4
        true).1.files = none ∧
    ((emptyDir.Add [9] "g" ⟨0, 1, true, true⟩ true true).1.Serve "g" 4
        true).1.Serve "g" 4 true
      = (((emptyDir.Add [9] "g" ⟨0, 1, true, true⟩ true true).1.Serve "g" 4
          true).1, .error .notFound)) :=
  ⟨⟨by decide, by decide, by decide, by decide⟩,
    add_one_download_serve_lifecycle emptyDir [9] "g" true true true 4
      (by decide) (by decide) (by decide) (by decide)⟩

/-- **C4.** `Add` with unlimited downloads (`Downloads = 0`) and no
expiration, on a fresh valid name: the add succeeds, `Serve` returns
exactly the uploaded bytes and leaves the store (map, records, cache,
disk, timers) completely unchanged, and therefore any number of repeated
`Serve` calls leaves the store at the post-`Add` state. -/
theorem unlimited_serve_roundtrip (d : directory) (file : Content)
    (name : String) (pub del uok : Bool) (now : Nat)
    (hb : pathBase name = name) (hr : resolvesToDir name = false)
    (hf : List.lookup name d.files = none)
    (hd : List.lookup name d.disk = none) :
    (d.Add file name ⟨0, 0, pub, del⟩ true true).2 = none ∧
    (d.Add file name ⟨0, 0, pub, del⟩ true true).1.Serve name now uok
      = ((d.Add file name ⟨0, 0, pub, del⟩ true true).1, .ok (some file)) ∧
    ∀ k, serveIter name now uok k
        (d.Add file name ⟨0, 0, pub, del⟩ true true).1
      = (d.Add file name ⟨0, 0, pub, del⟩ true true).1 := by
  obtain ⟨h1, h2⟩ := valid_name_no_slash name hb hr
  have hAdd : d.Add file name ⟨0, 0, pub, del⟩ true true
      = ({ d with
            disk := setRec (setRec d.disk name []) name file
            files := setRec d.files name ⟨0, 0, pub, del⟩
            dirty := d.dirty || pub }, none) := by
    rw [Add_fresh d file name ⟨0, 0, pub, del⟩ hb hr hf hd]
    simp
  set D1 : directory :=
    { d with
        disk := setRec (setRec d.disk name []) name file
        files := setRec d.files name ⟨0, 0, pub, del⟩
        dirty := d.dirty || pub } with hD1def
  have hlk1 : List.lookup name D1.files = some ⟨0, 0, pub, del⟩ := by
    rw [hD1def]; exact lookup_setRec_self _ _ _
  have hdisk1 : List.lookup name D1.disk = some file := by
    rw [hD1def]; exact lookup_setRec_self _ _ _
  have hfix : D1.Serve name now uok = (D1, .ok (some file)) := by
    rw [Serve_unlimited D1 name now uok ⟨0, 0, pub, del⟩ h1 h2 hlk1 rfl
      (by simp [Constraints.expired]), hdisk1]
  refine ⟨?_, ?_, ?_⟩
  · rw [hAdd]
  · rw [hAdd]
    dsimp only
    exact hfix
  · intro k
    rw [hAdd]
    dsimp only
    induction k with
    | zero => rfl
    | succ k ih =>
      show serveIter name now uok k (D1.Serve name now uok).1 = D1
      rw [hfix]
      exact ih

/-- **C4 witness.** Instantiated at the empty store, content `[3, 4]`,
name `"u"`, three repeated serves. -/
theorem unlimited_serve_roundtrip_witness :
    (pathBase "u" = "u" ∧ resolvesToDir "u" = false ∧
      List.lookup "u" emptyDir.files = none ∧
      List.lookup "u" emptyDir.disk = none) ∧
    ((emptyDir.Add [3, 4] "u" ⟨0, 0, false, false⟩ true true).2 = none ∧
    (emptyDir.Add [3, 4] "u" ⟨0, 0, false, false⟩ true true).1.Serve "u" 9
        true
      = ((emptyDir.Add [3, 4] "u" ⟨0, 0, false, false⟩ true true).1,
          .ok (some [3, 4])) ∧
    serveIter "u" 9 true 3
        (emptyDir.Add [3, 4] "u" ⟨0, 0, false, false⟩ true true).1
      = (emptyDir.Add [3, 4] "u" ⟨0, 0, false, false⟩ true true).1) :=
  ⟨⟨by decide, by decide, by decide, by decide⟩,
    ⟨(unlimited_serve_roundtrip emptyDir [3, 4] "u" false false true 9
        (by decide) (by decide) (by decide) (by decide)).1,
      (unlimited_serve_roundtrip emptyDir [3, 4] "u" false false true 9
        (by decide) (by decide) (by decide) (by decide)).2.1,
      (unlimited_serve_roundtrip emptyDir [3, 4] "u" false false true 9
        (by decide) (by decide) (by decide) (by decide)).2.2 3⟩⟩

/-- **C2** (code bug: the dirty-flag discipline is violated by one
mutation).  Reachable failing run: add a public `"a"`; `List` rebuilds and
clears the dirty flag; overwrite `"a"` with a *non-public* record.  The
overwrite changes public membership (the public set shrinks from
`{"a"}` to `{}`), but `Add` consults only the *new* record's `public`
flag, so the dirty flag stays `false` and the next `List` returns the
stale `["a"]` even though no tracked record is public. -/
theorem public_overwrite_leaves_cache_stale :
    ((((emptyDir.Add [1] "a" ⟨0, 0, true, false⟩ true true).1.List).1.Add [2]
        "a" ⟨0, 0, false, false⟩ true true).1.dirty = false) ∧
    (publicNames ((((emptyDir.Add [1] "a" ⟨0, 0, true, false⟩ true
        true).1.List).1.Add [2] "a" ⟨0, 0, false, false⟩ true
        true).1.files) = []) ∧
    (((((emptyDir.Add [1] "a" ⟨0, 0, true, false⟩ true true).1.List).1.Add
        [2] "a" ⟨0, 0, false, false⟩ true true).1.List).2 = ["a"]) := by
  decide

end GoShare
